import Mathlib

/-!
Verification development for the `filemanager` repository (src/index.js),
an interactive file-manager shell. The dispatch loop `handleCommand`
(src/index.js lines 33-195) is embedded shallowly: the mutable session state
(`currentDir`) and the filesystem become explicit values threaded through a
step function, Node's `path`, `fs`, `crypto` and collation collaborators are
modelled from their documented semantics, and each command branch of the
`switch` statement is translated clause by clause.

Conventions of the embedding:
- A `Path` is the component list of a normalized absolute POSIX path
  (`[]` is the filesystem root `/`); `os.homedir()` and every value ever
  assigned to `currentDir` in the source (`path.resolve` / `path.dirname`
  outputs) are of this shape.
- File contents are byte lists (`List Nat`, each element < 256).
- Thrown JavaScript errors are modelled by their message strings, matching
  the dispatcher's catch clause (lines 189-193), which compares
  `err.message` against the two user-facing texts.
- An error delivered asynchronously (an exception thrown inside a stream or
  pipeline callback after the handler's `try` block has been exited, an
  `error` event with no listener, or an unhandled promise rejection) cannot
  reach the dispatcher's catch; per Node semantics it terminates the
  process, modelled by the `Outcome.crashed` result.
-/

set_option maxRecDepth 8000

/-- A normalized absolute POSIX path, as its list of components; `[]` is `/`. -/
abbrev FmPath := List String

/-- Rendering of a path back to the string form Node's `path` module works on:
`[]` is `"/"`, `["a","b"]` is `"/a/b"`. -/
def pathRender (p : FmPath) : String :=
  match p with
  | [] => "/"
  | _ => p.foldl (fun acc c => acc ++ "/" ++ c) ""

/-- Model of `path.dirname` on a normalized absolute path: drop the last
component; `path.dirname("/") = "/"`. -/
def dirnameP (p : FmPath) : FmPath := p.dropLast

/-- Embeds `isRootDir` (src/index.js lines 28-31):
`path.parse(dir).root === dir || path.parse(dir).dir === path.parse(dir).root`.
For a normalized absolute path, `parse(dir).root = "/"` and
`parse(dir).dir` renders the path without its last component, so the test
compares the rendered path, and the rendered path of its parent, with `"/"`.
Note this is true not only at the root but also at every direct child of the
root (for `"/home"`, `parse` gives `dir = "/" = root`). -/
def isRootDir (p : FmPath) : Bool :=
  pathRender p == "/" || pathRender (dirnameP p) == "/"

/-- Splits a string at every `'/'`, keeping empty segments: the behaviour of
`String.prototype.split("/")`, written structurally so it evaluates in the
kernel. -/
def splitSlashAux : List Char → List Char → List String
  | cur, [] => [String.mk cur.reverse]
  | cur, ch :: rest =>
    if ch = '/' then String.mk cur.reverse :: splitSlashAux [] rest
    else splitSlashAux (ch :: cur) rest

def splitOnSlash (s : String) : List String := splitSlashAux [] s.data

def isAbsoluteStr (s : String) : Bool :=
  match s.data with
  | '/' :: _ => true
  | _ => false

/-- Normalization step shared by `path.resolve` and `path.join`: fold the raw
segments onto a base path, skipping empty and `.` segments and letting `..`
pop the last component (at the root it stays at the root). -/
def normalizeSegs (init : FmPath) (segs : List String) : FmPath :=
  segs.foldl (fun acc seg =>
    if seg = "" || seg = "." then acc
    else if seg = ".." then acc.dropLast
    else acc ++ [seg]) init

/-- Model of `path.resolve(cwd, s)` for a normalized absolute `cwd`: an
absolute `s` is normalized on its own, a relative `s` is joined onto `cwd`. -/
def resolvePath (cwd : FmPath) (s : String) : FmPath :=
  normalizeSegs (if isAbsoluteStr s then [] else cwd) (splitOnSlash s)

/-- Model of `path.join(base, s)` for a normalized absolute `base`. -/
def joinPath (base : FmPath) (s : String) : FmPath :=
  normalizeSegs base (splitOnSlash s)

/-- Embeds the argument tokenization of line 34,
`input.trim().split(' ').filter(Boolean)`: the space-separated words of the
input, ignoring leading, trailing and repeated spaces. -/
def wordsAux : List Char → List Char → List String
  | cur, [] => if cur = [] then [] else [String.mk cur.reverse]
  | cur, ch :: rest =>
    if ch = ' ' then
      if cur = [] then wordsAux [] rest
      else String.mk cur.reverse :: wordsAux [] rest
    else wordsAux (ch :: cur) rest

def parseInput (input : String) : List String := wordsAux [] input.data

/-- A filesystem entry. The `locked` flag on a file models an entry the
operating system refuses to modify or remove (an immutable file: opening for
write, truncating, renaming and `unlink` all fail with `EPERM`, while reads
succeed). -/
inductive Entry
  | file (content : List Nat) (locked : Bool)
  | dir
deriving DecidableEq

def Entry.isDirectory : Entry → Bool
  | .dir => true
  | _ => false

/-- The filesystem, as an association list from absolute paths to entries.
Modelled from the spec: the filesystem collaborator behind `fs` /
`fs.promises`, which the source consumes as a black box. -/
structure FmFS where
  entries : List (FmPath × Entry)
deriving DecidableEq

/-- Model of `fs.stat` (and of the existence checks behind the other calls):
look the path up; `none` is a rejection such as `ENOENT`. -/
def FmFS.stat (fs : FmFS) (p : FmPath) : Option Entry :=
  fs.entries.lookup p

def FmFS.isDir (fs : FmFS) (p : FmPath) : Bool :=
  fs.stat p == some Entry.dir

/-- Replace or create the entry at `p`. -/
def FmFS.set (fs : FmFS) (p : FmPath) (e : Entry) : FmFS :=
  ⟨(p, e) :: fs.entries.filter (fun q => q.1 != p)⟩

def FmFS.remove (fs : FmFS) (p : FmPath) : FmFS :=
  ⟨fs.entries.filter (fun q => q.1 != p)⟩

/-- A directory entry as returned by `fs.readdir(.., withFileTypes)`. -/
structure Dirent where
  name : String
  isDir : Bool
deriving DecidableEq

/-- Model of `fs.readdir(p, withFileTypes)` : the immediate children of `p`,
in the filesystem's enumeration order, or a rejection when `p` is not a
directory. -/
def FmFS.readdir (fs : FmFS) (p : FmPath) : Option (List Dirent) :=
  match fs.stat p with
  | some Entry.dir => some (fs.entries.filterMap (fun q =>
      match q.1.getLast? with
      | some nm => if q.1.dropLast == p then some ⟨nm, q.2.isDirectory⟩ else none
      | none => none))
  | _ => none

/-- Primary collation weight of a character: its case-folded code point.
Part of the model of `String.prototype.localeCompare`. -/
def primaryWeight (c : Char) : Nat := c.toLower.toNat

/-- Case weight of a character: under the default ICU collation lowercase
sorts before uppercase when the primary weights tie. -/
def caseWeight (c : Char) : Nat := if c.isUpper then 1 else 0

/-- Three-way lexicographic comparison of weight lists. -/
def cmpNatList : List Nat → List Nat → Int
  | [], [] => 0
  | [], _ :: _ => -1
  | _ :: _, [] => 1
  | a :: as, b :: bs => if a < b then -1 else if b < a then 1 else cmpNatList as bs

/-- Modelled from the spec: the locale-aware comparison
`a.localeCompare(b)` of line 59 under the default locale, restricted to
ASCII names: a primary pass on case-folded characters, with case
(lowercase first) as the tie-breaker. -/
def localeCompare (a b : String) : Int :=
  let p := cmpNatList (a.data.map primaryWeight) (b.data.map primaryWeight)
  if p = 0 then cmpNatList (a.data.map caseWeight) (b.data.map caseWeight) else p

/-- Insert into a sorted list, after every element that compares
less-or-equal: the placement a stable sort gives a later-arriving element. -/
def insertSorted (cmp : α → α → Int) (x : α) : List α → List α
  | [] => [x]
  | y :: ys => if cmp x y ≤ 0 then x :: y :: ys else y :: insertSorted cmp x ys

/-- Model of `Array.prototype.sort(cmp)`: V8's sort is stable, and for a
consistent comparator every stable sort computes the same list, so a stable
insertion sort embeds it. -/
def sortJS (cmp : α → α → Int) : List α → List α
  | [] => []
  | x :: xs => insertSorted cmp x (sortJS cmp xs)

/-- A row of the `ls` table: a name and its `type` tag. -/
structure LsEntry where
  name : String
  type : String
deriving DecidableEq

def lsEntryCmp (a b : LsEntry) : Int := localeCompare a.name b.name

/-- Embeds the `ls` computation of lines 57-59: tag the directories, tag the
files, concatenate the two groups and sort the whole concatenation by
`localeCompare` on the names. -/
def lsOf (items : List Dirent) : List LsEntry :=
  let dirs := (items.filter (fun i => i.isDir)).map (fun i => LsEntry.mk i.name "directory")
  let files := (items.filter (fun i => !i.isDir)).map (fun i => LsEntry.mk i.name "file")
  sortJS lsEntryCmp (dirs ++ files)

/-- Checks the spec's ordering claim for an `ls` result: after the first
file-typed row, no directory-typed row appears. -/
def dirsBeforeFiles : List LsEntry → Bool
  | [] => true
  | e :: rest =>
    (if e.type == "file" then rest.all (fun r => r.type != "directory") else true)
      && dirsBeforeFiles rest


/-!
SHA-256, modelled from the spec: the cryptographic digest provider behind
`crypto.createHash('sha256')`, which the source consumes as a black box; the
embedding follows FIPS 180-4. Machine words are `Nat` reduced modulo `2^32`.
The initial state and round constants are the fractional parts of the square
and cube roots of the first 64 primes; they are given as literals for
evaluation speed and certified against that derivation below
(`sha256K_matches_derivation`, `sha256H0_matches_derivation`).
-/

def isPrimeB (n : Nat) : Bool :=
  Nat.ble 2 n && (((List.range n).drop 2).all (fun d => n % d != 0))

/-- The first 64 primes. -/
def sha256Primes : List Nat := ((List.range 320).filter isPrimeB).take 64

/-- Largest `r` with `r^3 ≤ n`, by bisection on `[lo, hi)` with explicit
fuel so the kernel can evaluate it. -/
def cubeRootBelowAux (n : Nat) : Nat → Nat → Nat → Nat
  | 0, lo, _ => lo
  | fuel+1, lo, hi =>
    if hi ≤ lo + 1 then lo
    else
      let mid := (lo + hi) / 2
      if mid * mid * mid ≤ n then cubeRootBelowAux n fuel mid hi
      else cubeRootBelowAux n fuel lo mid

def cubeRootBelow (n : Nat) : Nat := cubeRootBelowAux n 64 0 1099511627776

/-- Largest `r` with `r^2 ≤ n`, by the same bisection. -/
def sqrtBelowAux (n : Nat) : Nat → Nat → Nat → Nat
  | 0, lo, _ => lo
  | fuel+1, lo, hi =>
    if hi ≤ lo + 1 then lo
    else
      let mid := (lo + hi) / 2
      if mid * mid ≤ n then sqrtBelowAux n fuel mid hi
      else sqrtBelowAux n fuel lo mid

def sqrtBelow (n : Nat) : Nat := sqrtBelowAux n 64 0 1099511627776

/-- First 32 bits of the fractional part of the cube root of `p`:
`floor(2^32 * cbrt p) mod 2^32`, and `floor(2^32 * cbrt p) = cbrt (p * 2^96)`. -/
def fracCbrt32 (p : Nat) : Nat := cubeRootBelow (p * 2 ^ 96) % 4294967296

/-- First 32 bits of the fractional part of the square root of `p`. -/
def fracSqrt32 (p : Nat) : Nat := sqrtBelow (p * 2 ^ 64) % 4294967296

def sha256KDerived : List Nat := sha256Primes.map fracCbrt32

def sha256H0Derived : List Nat := (sha256Primes.take 8).map fracSqrt32

/-- The 64 SHA-256 round constants (FIPS 180-4 section 4.2.2). -/
def sha256K : List Nat :=
  [1116352408, 1899447441, 3049323471, 3921009573, 961987163, 1508970993, 2453635748,
   2870763221, 3624381080, 310598401, 607225278, 1426881987, 1925078388, 2162078206,
   2614888103, 3248222580, 3835390401, 4022224774, 264347078, 604807628, 770255983,
   1249150122, 1555081692, 1996064986, 2554220882, 2821834349, 2952996808, 3210313671,
   3336571891, 3584528711, 113926993, 338241895, 666307205, 773529912, 1294757372,
   1396182291, 1695183700, 1986661051, 2177026350, 2456956037, 2730485921, 2820302411,
   3259730800, 3345764771, 3516065817, 3600352804, 4094571909, 275423344, 430227734,
   506948616, 659060556, 883997877, 958139571, 1322822218, 1537002063, 1747873779,
   1955562222, 2024104815, 2227730452, 2361852424, 2428436474, 2756734187, 3204031479,
   3329325298]

/-- The SHA-256 initial hash value (FIPS 180-4 section 5.3.3). -/
def sha256H0 : List Nat :=
  [1779033703, 3144134277, 1013904242, 2773480762, 1359893119, 2600822924, 528734635,
   1541459225]

def w32 (n : Nat) : Nat := n % 4294967296

def rotr32 (x n : Nat) : Nat := (x >>> n) ||| w32 (x <<< (32 - n))

def bigSigma0 (x : Nat) : Nat := rotr32 x 2 ^^^ rotr32 x 13 ^^^ rotr32 x 22

def bigSigma1 (x : Nat) : Nat := rotr32 x 6 ^^^ rotr32 x 11 ^^^ rotr32 x 25

def smallSigma0 (x : Nat) : Nat := rotr32 x 7 ^^^ rotr32 x 18 ^^^ (x >>> 3)

def smallSigma1 (x : Nat) : Nat := rotr32 x 17 ^^^ rotr32 x 19 ^^^ (x >>> 10)

def chFn (x y z : Nat) : Nat := (x &&& y) ^^^ ((x ^^^ 4294967295) &&& z)

def majFn (x y z : Nat) : Nat := (x &&& y) ^^^ (x &&& z) ^^^ (y &&& z)

/-- The eight working variables of the compression function. -/
structure Sha256State where
  a : Nat
  b : Nat
  c : Nat
  d : Nat
  e : Nat
  f : Nat
  g : Nat
  hh : Nat

/-- One round of the compression function, consuming a pair of a round
constant and a schedule word. -/
def shaRound (st : Sha256State) (kw : Nat × Nat) : Sha256State :=
  let t1 := w32 (st.hh + bigSigma1 st.e + chFn st.e st.f st.g + kw.1 + kw.2)
  let t2 := w32 (bigSigma0 st.a + majFn st.a st.b st.c)
  ⟨w32 (t1 + t2), st.a, st.b, st.c, w32 (st.d + t1), st.e, st.f, st.g⟩

/-- Big-endian 32-bit word from the first four bytes of a list. -/
def be4 (l : List Nat) : Nat :=
  ((l.getD 0 0 * 256 + l.getD 1 0) * 256 + l.getD 2 0) * 256 + l.getD 3 0

def blockWords (block : List Nat) : List Nat :=
  (List.range 16).map (fun i => be4 (block.drop (4 * i)))

/-- Extend the 16 block words to the 64-word message schedule. -/
def extendWAux : Nat → List Nat → List Nat
  | 0, ws => ws
  | fuel+1, ws =>
    let t := ws.length
    let wNew := w32 (smallSigma1 (ws.getD (t - 2) 0) + ws.getD (t - 7) 0 +
      smallSigma0 (ws.getD (t - 15) 0) + ws.getD (t - 16) 0)
    extendWAux fuel (ws ++ [wNew])

def messageSchedule (block : List Nat) : List Nat := extendWAux 48 (blockWords block)

def compressBlock (hv : List Nat) (block : List Nat) : List Nat :=
  let ws := messageSchedule block
  let init : Sha256State := ⟨hv.getD 0 0, hv.getD 1 0, hv.getD 2 0, hv.getD 3 0,
    hv.getD 4 0, hv.getD 5 0, hv.getD 6 0, hv.getD 7 0⟩
  let fin := (sha256K.zip ws).foldl shaRound init
  [w32 (hv.getD 0 0 + fin.a), w32 (hv.getD 1 0 + fin.b), w32 (hv.getD 2 0 + fin.c),
   w32 (hv.getD 3 0 + fin.d), w32 (hv.getD 4 0 + fin.e), w32 (hv.getD 5 0 + fin.f),
   w32 (hv.getD 6 0 + fin.g), w32 (hv.getD 7 0 + fin.hh)]

/-- Merkle-Damgard padding: `0x80`, zeros to 56 mod 64, then the bit length
as eight big-endian bytes. -/
def sha256Pad (msg : List Nat) : List Nat :=
  let len := msg.length
  let zeros := (119 - len % 64) % 64
  let bitLen := len * 8
  msg ++ 128 :: (List.replicate zeros 0 ++
    (List.range 8).map (fun i => (bitLen >>> ((7 - i) * 8)) % 256))

def splitBlocksAux : Nat → List Nat → List (List Nat)
  | 0, _ => []
  | _, [] => []
  | fuel+1, l => l.take 64 :: splitBlocksAux fuel (l.drop 64)

def sha256Words (msg : List Nat) : List Nat :=
  let padded := sha256Pad msg
  (splitBlocksAux padded.length padded).foldl compressBlock sha256H0

def wordBytes (wd : Nat) : List Nat :=
  [(wd >>> 24) % 256, (wd >>> 16) % 256, (wd >>> 8) % 256, wd % 256]

def sha256Bytes (msg : List Nat) : List Nat :=
  (sha256Words msg).foldr (fun wd acc => wordBytes wd ++ acc) []

def hexDigit (n : Nat) : Char := ("0123456789abcdef".data).getD n 'x'

def byteHex (b : Nat) : List Char := [hexDigit (b / 16), hexDigit (b % 16)]

/-- The digest as the `'hex'` encoding of `hash.digest`: 64 lowercase
hexadecimal characters. -/
def sha256hex (msg : List Nat) : String :=
  String.mk ((sha256Bytes msg).foldr (fun b acc => byteHex b ++ acc) [])

/-!
The streaming read model and the dispatcher.
-/

/-- Chunking of `fs.createReadStream`: the file's bytes are delivered as
`data` events of at most 65536 bytes (the default `highWaterMark`); an empty
file delivers no chunk. Written with fuel so it is structural. -/
def chunksOfAux : Nat → List Nat → List (List Nat)
  | 0, _ => []
  | _, [] => []
  | fuel+1, l => l.take 65536 :: chunksOfAux fuel (l.drop 65536)

def chunksOf (content : List Nat) : List (List Nat) :=
  chunksOfAux content.length content

/-- The byte sequence the digest stage of `hash` observes. The source pipes
the read stream into the hash twice (lines 149 and 152: `hashStream.pipe(hash)`
before and inside the promise executor, both attached before any data flows),
so each `data` chunk is written to the digest twice in a row. -/
def doubleChunks (content : List Nat) : List Nat :=
  (chunksOf content).foldr (fun c acc => c ++ c ++ acc) []

/-- Modelled from the spec: the Brotli codec provider (`zlib`), an external
collaborator; `decompressFn` returns `none` on malformed input, which
surfaces as a pipeline error. Theorems quantify over the codec. -/
structure Codec where
  compressFn : List Nat → List Nat
  decompressFn : List Nat → Option (List Nat)

/-- Modelled from the spec: the OS metadata provider behind the `os` command
(lines 117-141); the five recognized flags print a host-dependent line,
abstracted as opaque strings, and any other argument throws `Invalid input`. -/
def osInfo (flag : String) : Option String :=
  if flag = "--EOL" then some "os-eol"
  else if flag = "--cpus" then some "os-cpus"
  else if flag = "--homedir" then some "os-homedir"
  else if flag = "--username" then some "os-username"
  else if flag = "--architecture" then some "os-architecture"
  else none

/-- The session and filesystem state a dispatch cycle acts on. -/
structure World where
  fs : FmFS
  cwd : FmPath
deriving DecidableEq

/-- The user-visible result of one dispatch cycle.
`ok lines` is normal completion with the given lines printed before the
prompt; `invalidInput` / `operationFailed` are the two caught error lines of
the catch clause (lines 189-193); `exited` is the `.exit` termination; and
`crashed` is an asynchronous failure no catch can reach, which terminates
the Node process (uncaught exception or unhandled promise rejection). -/
inductive Outcome
  | ok (printed : List String)
  | invalidInput
  | operationFailed
  | exited
  | crashed
deriving DecidableEq

/-- The dispatch table's required argument counts, as enforced by the
per-command `if (!args[i]) throw` checks; `none` for a command that is not
in the table. -/
def minArgs (c : String) : Option Nat :=
  if c = "up" then some 0
  else if c = "cd" then some 1
  else if c = "ls" then some 0
  else if c = "cat" then some 1
  else if c = "add" then some 1
  else if c = "rn" then some 2
  else if c = "cp" then some 2
  else if c = "mv" then some 2
  else if c = "rm" then some 1
  else if c = "os" then some 1
  else if c = "hash" then some 1
  else if c = "compress" then some 2
  else if c = "decompress" then some 2
  else if c = ".exit" then some 0
  else none

/-- An invocation the argument checks reject: an unknown command, or a known
command given fewer than its required arguments. -/
def isShortInvocation (c : String) (args : List String) : Bool :=
  match minArgs c with
  | none => true
  | some n => args.length < n

/-- Opening `dst` with `fs.createWriteStream` and writing `bytes` through a
pipeline: fails (the stream emits an error) when `dst` is a directory, an
immutable file, or its parent directory is missing; otherwise the target is
created or truncated and holds exactly `bytes` afterwards. -/
def writeOut (fs : FmFS) (dst : FmPath) (bytes : List Nat) : Option FmFS :=
  match fs.stat dst with
  | some Entry.dir => none
  | some (Entry.file _ true) => none
  | some (Entry.file _ false) => some (fs.set dst (Entry.file bytes false))
  | none =>
    if fs.isDir (dirnameP dst) then some (fs.set dst (Entry.file bytes false))
    else none

/-- Embeds the `ls` case (lines 55-61): readdir the current directory,
split into directories and files, tag, sort, print the table; a readdir
rejection is awaited and caught as `Operation failed`. -/
def lsCommand (fs : FmFS) (cwd : FmPath) : FmFS × Outcome :=
  match fs.readdir cwd with
  | some items => (fs, .ok ((lsOf items).map (fun e => e.name ++ " " ++ e.type)))
  | none => (fs, .operationFailed)

/-- Embeds the `cat` case (lines 64-71): stream the file to stdout. A
missing or unreadable path makes the read stream emit `error` with no
listener: the exception is uncaught and the process dies. The streamed
bytes are not modelled as a printed line. -/
def catCommand (fs : FmFS) (cwd : FmPath) (a : String) : FmFS × Outcome :=
  match fs.stat (resolvePath cwd a) with
  | some (Entry.file _ _) => (fs, .ok [])
  | _ => (fs, .crashed)

/-- Embeds the `add` case (lines 73-76):
`fs.writeFile(path.join(currentDir, name), '')` with the default `w` flag
creates the file or truncates an existing writable one to zero bytes; the
rejections (immutable target, directory target, missing parent) are awaited
and caught. -/
def addCommand (fs : FmFS) (cwd : FmPath) (a : String) : FmFS × Outcome :=
  match fs.stat (joinPath cwd a) with
  | some (Entry.file _ false) => (fs.set (joinPath cwd a) (Entry.file [] false), .ok [])
  | some (Entry.file _ true) => (fs, .operationFailed)
  | some Entry.dir => (fs, .operationFailed)
  | none =>
    if fs.isDir (dirnameP (joinPath cwd a)) then
      (fs.set (joinPath cwd a) (Entry.file [] false), .ok [])
    else (fs, .operationFailed)

/-- Embeds the `rn` case (lines 78-83): `fs.rename` to a sibling name;
rejections awaited and caught. (Children of a renamed directory are not
tracked: no claim depends on renaming directories.) -/
def rnCommand (fs : FmFS) (cwd : FmPath) (a0 a1 : String) : FmFS × Outcome :=
  match fs.stat (resolvePath cwd a0) with
  | none => (fs, .operationFailed)
  | some (Entry.file _ true) => (fs, .operationFailed)
  | some ent =>
    match fs.stat (joinPath (dirnameP (resolvePath cwd a0)) a1) with
    | some Entry.dir => (fs, .operationFailed)
    | _ => ((fs.remove (resolvePath cwd a0)).set
        (joinPath (dirnameP (resolvePath cwd a0)) a1) ent, .ok [])

/-- Embeds the `cp` case (lines 85-94): `pipeline(read, write, cb)` is not
awaited, and on a pipeline error the callback throws after the handler's
try/catch has been exited: the exception is uncaught and the process dies.
On success the destination holds the source bytes. -/
def cpCommand (fs : FmFS) (cwd : FmPath) (a0 a1 : String) : FmFS × Outcome :=
  match fs.stat (resolvePath cwd a0) with
  | some (Entry.file content _) =>
    match writeOut fs (resolvePath cwd a1) content with
    | some fs2 => (fs2, .ok [])
    | none => (fs, .crashed)
  | _ => (fs, .crashed)

/-- Embeds the `mv` case (lines 96-109): the pipeline is wrapped in an
awaited promise; a pipeline error rejects with `Error('Operation failed')`
and is caught. On success the callback runs `await fs.unlink(src)` and only
then resolves; if unlink rejects, the rejection stays inside the un-awaited
async callback: the outer promise never settles and the unhandled rejection
kills the process. -/
def mvCommand (fs : FmFS) (cwd : FmPath) (a0 a1 : String) : FmFS × Outcome :=
  match fs.stat (resolvePath cwd a0) with
  | some (Entry.file content lk) =>
    match writeOut fs (resolvePath cwd a1) content with
    | some fs2 =>
      if lk then (fs2, .crashed)
      else (fs2.remove (resolvePath cwd a0), .ok [])
    | none => (fs, .operationFailed)
  | _ => (fs, .operationFailed)

/-- Embeds the `rm` case (lines 111-113): awaited `fs.unlink`; rejections
caught. -/
def rmCommand (fs : FmFS) (cwd : FmPath) (a : String) : FmFS × Outcome :=
  match fs.stat (resolvePath cwd a) with
  | some (Entry.file _ false) => (fs.remove (resolvePath cwd a), .ok [])
  | _ => (fs, .operationFailed)

/-- Embeds the `os` case (lines 117-141). -/
def osCommand (fs : FmFS) (flag : String) : FmFS × Outcome :=
  match osInfo flag with
  | some s => (fs, .ok [s])
  | none => (fs, .invalidInput)

/-- Embeds the `hash` case (lines 144-155): the digest of the doubly-piped
stream, printed as lowercase hex once `finish` (fired after end-of-stream)
resolves the promise. A missing path makes the read stream emit an
unhandled `error`: the process dies. -/
def hashCommand (fs : FmFS) (cwd : FmPath) (a : String) : FmFS × Outcome :=
  match fs.stat (resolvePath cwd a) with
  | some (Entry.file content _) => (fs, .ok [sha256hex (doubleChunks content)])
  | _ => (fs, .crashed)

/-- Embeds the `compress` case (lines 158-168): un-awaited pipeline with a
Brotli stage; errors crash the process as in `cp`. -/
def compressCommand (codec : Codec) (fs : FmFS) (cwd : FmPath) (a0 a1 : String) :
    FmFS × Outcome :=
  match fs.stat (resolvePath cwd a0) with
  | some (Entry.file content _) =>
    match writeOut fs (resolvePath cwd a1) (codec.compressFn content) with
    | some fs2 => (fs2, .ok [])
    | none => (fs, .crashed)
  | _ => (fs, .crashed)

/-- Embeds the `decompress` case (lines 170-180). -/
def decompressCommand (codec : Codec) (fs : FmFS) (cwd : FmPath) (a0 a1 : String) :
    FmFS × Outcome :=
  match fs.stat (resolvePath cwd a0) with
  | some (Entry.file content _) =>
    match codec.decompressFn content with
    | some plain =>
      match writeOut fs (resolvePath cwd a1) plain with
      | some fs2 => (fs2, .ok [])
      | none => (fs, .crashed)
    | none => (fs, .crashed)
  | _ => (fs, .crashed)

/-- The non-navigation cases of the `switch` statement (lines 55-187):
every case except `up` and `cd`, none of which assigns `currentDir`. Each
branch first performs the source's `if (!args[i]) throw new
Error('Invalid input')` argument checks, then runs the case; the default
case (line 186-187) also throws `Invalid input`. -/
def runNonNav (codec : Codec) (fs : FmFS) (cwd : FmPath) (c : String)
    (args : List String) : FmFS × Outcome :=
  if c = "ls" then lsCommand fs cwd
  else if c = "cat" then
    match args.head? with
    | none => (fs, .invalidInput)
    | some a => catCommand fs cwd a
  else if c = "add" then
    match args.head? with
    | none => (fs, .invalidInput)
    | some a => addCommand fs cwd a
  else if c = "rn" then
    match args with
    | a0 :: a1 :: _ => rnCommand fs cwd a0 a1
    | _ => (fs, .invalidInput)
  else if c = "cp" then
    match args with
    | a0 :: a1 :: _ => cpCommand fs cwd a0 a1
    | _ => (fs, .invalidInput)
  else if c = "mv" then
    match args with
    | a0 :: a1 :: _ => mvCommand fs cwd a0 a1
    | _ => (fs, .invalidInput)
  else if c = "rm" then
    match args.head? with
    | none => (fs, .invalidInput)
    | some a => rmCommand fs cwd a
  else if c = "os" then
    match args.head? with
    | none => (fs, .invalidInput)
    | some flag => osCommand fs flag
  else if c = "hash" then
    match args.head? with
    | none => (fs, .invalidInput)
    | some a => hashCommand fs cwd a
  else if c = "compress" then
    match args with
    | a0 :: a1 :: _ => compressCommand codec fs cwd a0 a1
    | _ => (fs, .invalidInput)
  else if c = "decompress" then
    match args with
    | a0 :: a1 :: _ => decompressCommand codec fs cwd a0 a1
    | _ => (fs, .invalidInput)
  else if c = ".exit" then (fs, .exited)
  else (fs, .invalidInput)

/-- Embeds the `up` case (lines 39-43). -/
def upCommand (w : World) : World × Outcome :=
  (⟨w.fs, if isRootDir w.cwd then w.cwd else dirnameP w.cwd⟩, .ok [])

/-- Embeds the `cd` case (lines 45-53): a failed stat rejects with a
filesystem error message, which the catch prints as `Operation failed`; a
non-directory throws `Error('Invalid input')` (line 49). When the target is
an existing directory, evaluating the line-50 condition
`!isRootDir(newDir) |д| newDir.startsWith(os.homedir())` — which parses as
the two bitwise-or operations `(!isRootDir(newDir) | д) | newDir.startsWith(...)`
over the undeclared identifier `д` — computes `!isRootDir(newDir)` and then
throws `ReferenceError: д is not defined`; the message matches neither known
error text, so the catch prints `Operation failed`, and the assignment
`currentDir = newDir` on line 51 is unreachable: `cd` never updates the
current directory. -/
def cdCommand (w : World) (a : String) : World × Outcome :=
  match w.fs.stat (resolvePath w.cwd a) with
  | none => (w, .operationFailed)
  | some (Entry.file _ _) => (w, .invalidInput)
  | some Entry.dir => (w, .operationFailed)

/-- Dispatch of one tokenized input line over the `switch` statement: only
the `up` case ever reassigns `currentDir` (the `cd` case's assignment is
unreachable, see `cdCommand`), every other token list goes through
`runNonNav` and keeps the current directory; an empty token list hits the
default case. The dispatcher catch (lines 189-193) is folded into the
outcome of each branch. -/
def dispatch (codec : Codec) (_home : FmPath) (w : World) (toks : List String) :
    World × Outcome :=
  match toks with
  | [] => (w, .invalidInput)
  | c :: args =>
    if c = "up" then upCommand w
    else if c = "cd" then
      match args.head? with
      | none => (w, .invalidInput)
      | some a => cdCommand w a
    else
      let r := runNonNav codec w.fs w.cwd c args
      (⟨r.1, w.cwd⟩, r.2)

/-- Embeds one cycle of `handleCommand` (src/index.js lines 33-195): tokenize
the input line, dispatch it, produce the next world and the cycle's outcome. -/
def handleCommand (codec : Codec) (home : FmPath) (w : World) (input : String) :
    World × Outcome :=
  dispatch codec home w (parseInput input)

/-- A concrete codec for witnesses and counterexamples. -/
def idCodec : Codec := ⟨fun b => b, fun b => some b⟩

/-!
Helper lemmas, followed by the claim theorems.
-/

theorem cmpNatList_flip (a b : List Nat) : cmpNatList a b = - cmpNatList b a := by
  induction a generalizing b with
  | nil => cases b <;> simp [cmpNatList]
  | cons x xs ih =>
    cases b with
    | nil => simp [cmpNatList]
    | cons y ys =>
      simp only [cmpNatList]
      rcases Nat.lt_trichotomy x y with h | h | h
      · rw [if_pos h, if_neg (Nat.lt_asymm h), if_pos h]
      · subst h
        simp only [Nat.lt_irrefl, if_false]
        exact ih ys
      · rw [if_neg (Nat.lt_asymm h), if_pos h, if_pos h]; decide

theorem localeCompare_flip (a b : String) : localeCompare a b = - localeCompare b a := by
  unfold localeCompare
  rw [cmpNatList_flip (a.data.map primaryWeight) (b.data.map primaryWeight),
    cmpNatList_flip (a.data.map caseWeight) (b.data.map caseWeight)]
  by_cases h : cmpNatList (b.data.map primaryWeight) (a.data.map primaryWeight) = 0
  · simp [h]
  · simp [h, neg_eq_zero]

theorem lsEntryCmp_flip (a b : LsEntry) : lsEntryCmp a b = - lsEntryCmp b a :=
  localeCompare_flip a.name b.name

theorem insertSorted_head_cases (cmp : α → α → Int) (x : α) (l : List α) :
    (insertSorted cmp x l).head? = some x ∨ (insertSorted cmp x l).head? = l.head? := by
  cases l with
  | nil => left; rfl
  | cons y ys =>
    by_cases h : cmp x y ≤ 0
    · left; simp [insertSorted, h]
    · right; simp [insertSorted, h]

theorem chain_le_insertSorted (cmp : α → α → Int)
    (hflip : ∀ a b, cmp a b = - cmp b a) (x : α) :
    ∀ l : List α, List.Chain' (fun a b => cmp a b ≤ 0) l →
      List.Chain' (fun a b => cmp a b ≤ 0) (insertSorted cmp x l) := by
  intro l
  induction l with
  | nil => intro _; simp [insertSorted]
  | cons y ys ih =>
    intro hl
    by_cases h : cmp x y ≤ 0
    · simp only [insertSorted, if_pos h]
      exact List.chain'_cons.mpr ⟨h, hl⟩
    · simp only [insertSorted, if_neg h]
      rw [List.chain'_cons'] at hl
      obtain ⟨hy, hys⟩ := hl
      rw [List.chain'_cons']
      constructor
      · intro z hz
        rcases insertSorted_head_cases cmp x ys with hc | hc
        · rw [hc] at hz
          obtain rfl := (Option.mem_some_iff.mp hz)
          have hf := hflip x y
          omega
        · rw [hc] at hz
          exact hy z hz
      · exact ih hys

theorem insertSorted_perm (cmp : α → α → Int) (x : α) (l : List α) :
    List.Perm (insertSorted cmp x l) (x :: l) := by
  induction l with
  | nil => exact List.Perm.refl _
  | cons y ys ih =>
    by_cases h : cmp x y ≤ 0
    · simp [insertSorted, h]
    · simp only [insertSorted, if_neg h]
      exact (ih.cons y).trans (List.Perm.swap x y ys)

theorem sortJS_perm (cmp : α → α → Int) (l : List α) : List.Perm (sortJS cmp l) l := by
  induction l with
  | nil => exact List.Perm.refl _
  | cons x xs ih => exact (insertSorted_perm cmp x (sortJS cmp xs)).trans (ih.cons x)

theorem sortJS_chain (cmp : α → α → Int) (hflip : ∀ a b, cmp a b = - cmp b a)
    (l : List α) : List.Chain' (fun a b => cmp a b ≤ 0) (sortJS cmp l) := by
  induction l with
  | nil => simp [sortJS]
  | cons x xs ih => exact chain_le_insertSorted cmp hflip x _ ih

theorem FmFS.stat_set (fs : FmFS) (p : FmPath) (e : Entry) :
    (fs.set p e).stat p = some e := by
  simp [FmFS.stat, FmFS.set, List.lookup]

theorem sha256K_matches_derivation : sha256K = sha256KDerived := by decide

theorem sha256H0_matches_derivation : sha256H0 = sha256H0Derived := by decide

/-!
Claim theorems.
-/

/-- Claim C1, counterexample to the claim as stated, in both directions.
With /home/d an existing directory inside the home subtree, `cd d` does not
update the current directory to the resolved path /home/d: the line-50
condition throws its ReferenceError before the assignment, so the command
fails with `OperationFailed` and the world is unchanged. And `cd missing`,
whose metadata probe fails, also yields `OperationFailed`, not the claimed
`InvalidInput`. -/
theorem cd_never_switches_counterexample :
    (handleCommand idCodec ["home"]
        ⟨⟨[([], Entry.dir), (["home"], Entry.dir), (["home", "d"], Entry.dir)]⟩, ["home"]⟩
        "cd d" =
      (⟨⟨[([], Entry.dir), (["home"], Entry.dir), (["home", "d"], Entry.dir)]⟩, ["home"]⟩,
        Outcome.operationFailed)) ∧
    resolvePath ["home"] "d" = ["home", "d"] ∧
    (["home"] : FmPath) ≠ ["home", "d"] ∧
    (handleCommand idCodec ["home"]
      ⟨⟨[([], Entry.dir), (["home"], Entry.dir)]⟩, ["home"]⟩ "cd missing").2 =
      Outcome.operationFailed ∧
    Outcome.operationFailed ≠ Outcome.invalidInput := by decide

/-- Claim C1 (amended): a `cd` invocation never updates the session's
current directory. When the resolved path exists and is a directory, the
command fails with `OperationFailed` — evaluating the mangled line-50
condition throws a ReferenceError before the assignment to `currentDir` is
reached; when the resolved path exists but is not a directory, the command
fails with `InvalidInput`; and when the metadata probe fails, the command
fails with `OperationFailed`. In every case the world is returned
unchanged. -/
theorem cd_resolution_and_error_kinds (codec : Codec) (home : FmPath) (w : World)
    (input arg : String) (hp : parseInput input = ["cd", arg]) :
    (w.fs.stat (resolvePath w.cwd arg) = none →
      handleCommand codec home w input = (w, Outcome.operationFailed)) ∧
    (∀ content lk, w.fs.stat (resolvePath w.cwd arg) = some (Entry.file content lk) →
      handleCommand codec home w input = (w, Outcome.invalidInput)) ∧
    (w.fs.stat (resolvePath w.cwd arg) = some Entry.dir →
      handleCommand codec home w input = (w, Outcome.operationFailed)) := by
  unfold handleCommand
  rw [hp]
  have hstep : dispatch codec home w ["cd", arg] = cdCommand w arg := rfl
  rw [hstep]
  unfold cdCommand
  refine ⟨fun hstat => ?_, fun content lk hstat => ?_, fun hstat => ?_⟩
  · rw [hstat]
  · rw [hstat]
  · rw [hstat]

theorem cd_resolution_and_error_kinds_witness :
    (handleCommand idCodec ["home"]
        ⟨⟨[([], Entry.dir), (["home"], Entry.dir)]⟩, ["home"]⟩ "cd nope" =
      (⟨⟨[([], Entry.dir), (["home"], Entry.dir)]⟩, ["home"]⟩, Outcome.operationFailed)) ∧
    (handleCommand idCodec ["home"]
        ⟨⟨[([], Entry.dir), (["home"], Entry.dir), (["home", "f"], Entry.file [] false)]⟩,
          ["home"]⟩ "cd f" =
      (⟨⟨[([], Entry.dir), (["home"], Entry.dir), (["home", "f"], Entry.file [] false)]⟩,
        ["home"]⟩, Outcome.invalidInput)) ∧
    (handleCommand idCodec ["home"]
        ⟨⟨[([], Entry.dir), (["home"], Entry.dir), (["home", "d"], Entry.dir)]⟩,
          ["home"]⟩ "cd d" =
      (⟨⟨[([], Entry.dir), (["home"], Entry.dir), (["home", "d"], Entry.dir)]⟩,
        ["home"]⟩, Outcome.operationFailed)) :=
  ⟨(cd_resolution_and_error_kinds idCodec ["home"] _ "cd nope" "nope" rfl).1 rfl,
   (cd_resolution_and_error_kinds idCodec ["home"] _ "cd f" "f" rfl).2.1 [] false rfl,
   (cd_resolution_and_error_kinds idCodec ["home"] _ "cd d" "d" rfl).2.2 rfl⟩

/-- Claim C2, counterexample to the claim as stated: on a directory holding
the directory `b` and the file `a`, `ls` returns the file `a` before the
directory `b` — directories do not come before files. -/
theorem ls_not_dirs_first_counterexample :
    lsOf [⟨"b", true⟩, ⟨"a", false⟩] = [⟨"a", "file"⟩, ⟨"b", "directory"⟩] ∧
    dirsBeforeFiles (lsOf [⟨"b", true⟩, ⟨"a", false⟩]) = false := by decide

/-- Claim C2 (amended): `ls` returns every entry tagged with its type, as a
permutation of the tagged directories followed by the tagged files, but
sorted by locale-aware name comparison across the whole list rather than
within the two groups; on entries b.txt, A, z.txt with A a directory the
order is still A, b.txt, z.txt. -/
theorem ls_sorted_across_types (items : List Dirent) :
    List.Chain' (fun a b => lsEntryCmp a b ≤ 0) (lsOf items) ∧
    List.Perm (lsOf items)
      (((items.filter (fun i => i.isDir)).map (fun i => LsEntry.mk i.name "directory")) ++
        ((items.filter (fun i => !i.isDir)).map (fun i => LsEntry.mk i.name "file"))) ∧
    lsOf [⟨"b.txt", false⟩, ⟨"A", true⟩, ⟨"z.txt", false⟩] =
      [⟨"A", "directory"⟩, ⟨"b.txt", "file"⟩, ⟨"z.txt", "file"⟩] :=
  ⟨sortJS_chain lsEntryCmp lsEntryCmp_flip _, sortJS_perm lsEntryCmp _, by decide⟩

/-- Claim C3: the code does not print the digest of the file's bytes. The
read stream is piped into the digest twice, so on a one-chunk file holding
the byte 97 the printed digest is the digest of the bytes 97, 97 — which
differs from the SHA-256 of the actual content, whose lowercase hex digest
is also computed here for the record. -/
theorem hash_digests_doubled_stream :
    (handleCommand idCodec []
      ⟨⟨[([], Entry.dir), (["f.txt"], Entry.file [97] false)]⟩, []⟩ "hash f.txt").2 =
      Outcome.ok [sha256hex [97, 97]] ∧
    sha256hex [97, 97] ≠ sha256hex [97] ∧
    sha256hex [97] = "ca978112ca1bbdcafac231b39a23dc4da786eff8147c4e72b9807785afee48bb" :=
  ⟨rfl, by decide, by decide⟩

/-- Claim C4: not every handler failure is caught at the dispatcher. On
`cp` with a missing source the pipeline callback throws after the try/catch
has been exited: the exception is uncaught and terminates the process
instead of being printed as one of the two error lines. -/
theorem cp_pipeline_error_uncaught :
    (handleCommand idCodec [] ⟨⟨[([], Entry.dir)]⟩, []⟩ "cp missing.txt out.txt").2 =
      Outcome.crashed ∧
    Outcome.crashed ≠ Outcome.invalidInput ∧
    Outcome.crashed ≠ Outcome.operationFailed := by decide

/-- Claim C5: when the deletion step of `mv` fails, the command does not
report failure. On an immutable source the copy completes (the destination
holds the source bytes) and the source survives, but the `unlink` rejection
escapes the un-awaited async callback and kills the process: the outcome is
a crash, not a reported failure. -/
theorem mv_unlink_failure_uncaught :
    (handleCommand idCodec []
      ⟨⟨[([], Entry.dir), (["src.txt"], Entry.file [104, 105] true)]⟩, []⟩
      "mv src.txt dst.txt").2 = Outcome.crashed ∧
    ((handleCommand idCodec []
      ⟨⟨[([], Entry.dir), (["src.txt"], Entry.file [104, 105] true)]⟩, []⟩
      "mv src.txt dst.txt").1).fs.stat ["dst.txt"] = some (Entry.file [104, 105] false) ∧
    ((handleCommand idCodec []
      ⟨⟨[([], Entry.dir), (["src.txt"], Entry.file [104, 105] true)]⟩, []⟩
      "mv src.txt dst.txt").1).fs.stat ["src.txt"] = some (Entry.file [104, 105] true) := by
  decide

/-- Claim C6, counterexample to the claim as stated: at the current
directory /home — which is not the filesystem root and whose parent is / —
`up` leaves the current directory unchanged instead of moving to the
parent. -/
theorem up_root_child_counterexample :
    (handleCommand idCodec ["home"]
      ⟨⟨[([], Entry.dir), (["home"], Entry.dir)]⟩, ["home"]⟩ "up").1.cwd = ["home"] ∧
    (["home"] : FmPath) ≠ [] ∧
    dirnameP ["home"] = [] ∧
    (handleCommand idCodec ["home"]
      ⟨⟨[([], Entry.dir), (["home"], Entry.dir)]⟩, ["home"]⟩ "up").1.cwd ≠
      dirnameP ["home"] := by decide

/-- Claim C6 (amended): `up` sets the current directory to its parent unless
`isRootDir` holds of it — that is, unless the current directory is the
filesystem root or a direct child of the root — in which case `up` is a
no-op; the filesystem is untouched and the cycle succeeds either way. -/
theorem up_parent_unless_isRootDir (codec : Codec) (home : FmPath) (w : World) :
    handleCommand codec home w "up" =
      (⟨w.fs, if isRootDir w.cwd then w.cwd else dirnameP w.cwd⟩, Outcome.ok []) := rfl

/-- Claim C7: an input line whose command name is not in the dispatch table,
or a supported command invoked with fewer than its required argument count,
yields `InvalidInput` and leaves the whole world — current directory
included — unchanged. -/
theorem short_or_unknown_invocation_invalid (codec : Codec) (home : FmPath)
    (w : World) (input : String) (c : String) (args : List String)
    (hp : parseInput input = c :: args)
    (hshort : isShortInvocation c args = true) :
    handleCommand codec home w input = (w, Outcome.invalidInput) := by
  unfold handleCommand
  rw [hp]
  by_cases h01 : c = "up"
  · subst h01; simp [isShortInvocation, minArgs] at hshort
  by_cases h02 : c = "cd"
  · subst h02
    simp [isShortInvocation, minArgs] at hshort
    cases args with
    | nil => rfl
    | cons x xs => simp at hshort
  by_cases h03 : c = "ls"
  · subst h03; simp [isShortInvocation, minArgs] at hshort
  by_cases h04 : c = "cat"
  · subst h04
    simp [isShortInvocation, minArgs] at hshort
    cases args with
    | nil => rfl
    | cons x xs => simp at hshort
  by_cases h05 : c = "add"
  · subst h05
    simp [isShortInvocation, minArgs] at hshort
    cases args with
    | nil => rfl
    | cons x xs => simp at hshort
  by_cases h06 : c = "rn"
  · subst h06
    simp [isShortInvocation, minArgs] at hshort
    cases args with
    | nil => rfl
    | cons x xs =>
      cases xs with
      | nil => rfl
      | cons y ys => simp only [List.length_cons] at hshort; omega
  by_cases h07 : c = "cp"
  · subst h07
    simp [isShortInvocation, minArgs] at hshort
    cases args with
    | nil => rfl
    | cons x xs =>
      cases xs with
      | nil => rfl
      | cons y ys => simp only [List.length_cons] at hshort; omega
  by_cases h08 : c = "mv"
  · subst h08
    simp [isShortInvocation, minArgs] at hshort
    cases args with
    | nil => rfl
    | cons x xs =>
      cases xs with
      | nil => rfl
      | cons y ys => simp only [List.length_cons] at hshort; omega
  by_cases h09 : c = "rm"
  · subst h09
    simp [isShortInvocation, minArgs] at hshort
    cases args with
    | nil => rfl
    | cons x xs => simp at hshort
  by_cases h10 : c = "os"
  · subst h10
    simp [isShortInvocation, minArgs] at hshort
    cases args with
    | nil => rfl
    | cons x xs => simp at hshort
  by_cases h11 : c = "hash"
  · subst h11
    simp [isShortInvocation, minArgs] at hshort
    cases args with
    | nil => rfl
    | cons x xs => simp at hshort
  by_cases h12 : c = "compress"
  · subst h12
    simp [isShortInvocation, minArgs] at hshort
    cases args with
    | nil => rfl
    | cons x xs =>
      cases xs with
      | nil => rfl
      | cons y ys => simp only [List.length_cons] at hshort; omega
  by_cases h13 : c = "decompress"
  · subst h13
    simp [isShortInvocation, minArgs] at hshort
    cases args with
    | nil => rfl
    | cons x xs =>
      cases xs with
      | nil => rfl
      | cons y ys => simp only [List.length_cons] at hshort; omega
  by_cases h14 : c = ".exit"
  · subst h14; simp [isShortInvocation, minArgs] at hshort
  have hd : dispatch codec home w (c :: args) =
      (if c = "up" then upCommand w
       else if c = "cd" then
         match args.head? with
         | none => (w, Outcome.invalidInput)
         | some a => cdCommand w a
       else
         (⟨(runNonNav codec w.fs w.cwd c args).1, w.cwd⟩,
           (runNonNav codec w.fs w.cwd c args).2)) := rfl
  rw [hd, if_neg h01, if_neg h02]
  unfold runNonNav
  rw [if_neg h03, if_neg h04, if_neg h05, if_neg h06, if_neg h07, if_neg h08,
    if_neg h09, if_neg h10, if_neg h11, if_neg h12, if_neg h13, if_neg h14]

theorem short_or_unknown_invocation_invalid_witness :
    (handleCommand idCodec [] ⟨⟨[([], Entry.dir)]⟩, []⟩ "frobnicate" =
      (⟨⟨[([], Entry.dir)]⟩, []⟩, Outcome.invalidInput)) ∧
    (handleCommand idCodec [] ⟨⟨[([], Entry.dir)]⟩, []⟩ "cp onlyone" =
      (⟨⟨[([], Entry.dir)]⟩, []⟩, Outcome.invalidInput)) :=
  ⟨short_or_unknown_invocation_invalid idCodec [] _ "frobnicate" "frobnicate" [] rfl rfl,
   short_or_unknown_invocation_invalid idCodec [] _ "cp onlyone" "cp" ["onlyone"] rfl rfl⟩

/-- Claim C8: `hash` on an empty (zero-byte) file prints exactly the
standard SHA-256 digest of zero bytes. The read stream of an empty file
delivers no chunk, so even the double piping feeds the digest nothing. -/
theorem hash_empty_file_digest (codec : Codec) (home : FmPath) (w : World)
    (input a : String) (lk : Bool)
    (hp : parseInput input = ["hash", a])
    (hstat : w.fs.stat (resolvePath w.cwd a) = some (Entry.file [] lk)) :
    handleCommand codec home w input =
      (w, Outcome.ok ["e3b0c44298fc1c149afbf4c8996fb92427ae41e4649b934ca495991b7852b855"]) := by
  unfold handleCommand
  rw [hp]
  have hstep : dispatch codec home w ["hash", a] =
      (⟨(hashCommand w.fs w.cwd a).1, w.cwd⟩, (hashCommand w.fs w.cwd a).2) := rfl
  rw [hstep]
  unfold hashCommand
  rw [hstat]
  rfl

theorem hash_empty_file_digest_witness :
    handleCommand idCodec [] ⟨⟨[([], Entry.dir), (["e.txt"], Entry.file [] false)]⟩, []⟩
      "hash e.txt" =
    (⟨⟨[([], Entry.dir), (["e.txt"], Entry.file [] false)]⟩, []⟩,
      Outcome.ok ["e3b0c44298fc1c149afbf4c8996fb92427ae41e4649b934ca495991b7852b855"]) :=
  hash_empty_file_digest idCodec [] _ "hash e.txt" "e.txt" false rfl rfl

/-- Claim C9: the session's current directory is mutated only by `up` and
`cd`: for every input line whose command token is neither, the current
directory after the dispatch cycle equals the current directory before it. -/
theorem cwd_changed_only_by_nav (codec : Codec) (home : FmPath) (w : World)
    (input : String)
    (h1 : (parseInput input).head? ≠ some "up")
    (h2 : (parseInput input).head? ≠ some "cd") :
    ((handleCommand codec home w input).1).cwd = w.cwd := by
  unfold handleCommand
  cases hp : parseInput input with
  | nil => rfl
  | cons c args =>
    rw [hp] at h1 h2
    simp only [List.head?_cons, ne_eq, Option.some.injEq] at h1 h2
    have hd : dispatch codec home w (c :: args) =
        (if c = "up" then upCommand w
         else if c = "cd" then
           match args.head? with
           | none => (w, Outcome.invalidInput)
           | some a => cdCommand w a
         else
           (⟨(runNonNav codec w.fs w.cwd c args).1, w.cwd⟩,
             (runNonNav codec w.fs w.cwd c args).2)) := rfl
    rw [hd, if_neg h1, if_neg h2]

theorem cwd_changed_only_by_nav_witness :
    ((handleCommand idCodec [] ⟨⟨[([], Entry.dir)]⟩, []⟩ "ls").1).cwd = [] :=
  cwd_changed_only_by_nav idCodec [] ⟨⟨[([], Entry.dir)]⟩, []⟩ "ls"
    (by decide) (by decide)

/-- Claim C10: `add` on a path that already exists as a writable file
succeeds and truncates it: afterwards the file's content is empty
(`fs.writeFile` with the default `w` flag truncates an existing file). -/
theorem add_truncates_existing_file (codec : Codec) (home : FmPath) (fs : FmFS)
    (cwd : FmPath) (input a : String) (content : List Nat)
    (hp : parseInput input = ["add", a])
    (hstat : fs.stat (joinPath cwd a) = some (Entry.file content false)) :
    (handleCommand codec home ⟨fs, cwd⟩ input).2 = Outcome.ok [] ∧
    ((handleCommand codec home ⟨fs, cwd⟩ input).1).fs.stat (joinPath cwd a) =
      some (Entry.file [] false) := by
  unfold handleCommand
  rw [hp]
  have hstep : dispatch codec home ⟨fs, cwd⟩ ["add", a] =
      (⟨(addCommand fs cwd a).1, cwd⟩, (addCommand fs cwd a).2) := rfl
  rw [hstep]
  unfold addCommand
  rw [hstat]
  exact ⟨rfl, FmFS.stat_set fs (joinPath cwd a) (Entry.file [] false)⟩

theorem add_truncates_existing_file_witness :
    ((handleCommand idCodec [] ⟨⟨[([], Entry.dir), (["n.txt"], Entry.file [97] false)]⟩, []⟩
      "add n.txt").2 = Outcome.ok []) ∧
    ((handleCommand idCodec [] ⟨⟨[([], Entry.dir), (["n.txt"], Entry.file [97] false)]⟩, []⟩
      "add n.txt").1).fs.stat ["n.txt"] = some (Entry.file [] false) :=
  add_truncates_existing_file idCodec [] ⟨[([], Entry.dir), (["n.txt"], Entry.file [97] false)]⟩
    [] "add n.txt" "n.txt" [97] rfl rfl
